import Mathlib

/-!
Verification of the market-intelligence acquisition-and-enrichment pipeline.

Shallow embedding of the pipeline's core operations, translated from the
Python source:
  * `clean_company_name`, `upsert_company`        — src/scrapers/base.py
  * `request` (retry loop of `_request`)          — src/scrapers/base.py
  * `store_listing_company`                       — src/scrapers/reyting.py
  * `store_deal_merge`, `is_construction_deal`,
    `scrape_all`                                  — src/scrapers/etender.py
  * `classify_company_types`, `fill_missing_regions`,
    `aggregate_tender_stats` (its per-company
    aggregates), `update_company_source`          — src/pipeline/enrich.py
Keyword tables and region tables are copied from src/config.py.

Database rows are modelled as Lean structures, tables as lists, SQL
`UPDATE`s as maps over those lists returning the updated-row count,
`NUMERIC` as `Rat`, nullable columns as `Option`, dates as integers.
-/

/-! ## Character and string helpers

Python's `str.lower` / `str.upper` and Postgres `ILIKE` case-fold both
ASCII and Cyrillic (the two alphabets appearing in the configured keyword
and region tables); `lowerChar`/`upperChar` implement that folding on the
relevant Unicode blocks. -/

def lowerChar (c : Char) : Char :=
  let n := c.toNat
  if 65 ≤ n ∧ n ≤ 90 then Char.ofNat (n + 32)
  else if 0x410 ≤ n ∧ n ≤ 0x42F then Char.ofNat (n + 0x20)
  else if 0x400 ≤ n ∧ n ≤ 0x40F then Char.ofNat (n + 0x50)
  else if 0x460 ≤ n ∧ n ≤ 0x4FF ∧ n % 2 = 0 then Char.ofNat (n + 1)
  else c

def upperChar (c : Char) : Char :=
  let n := c.toNat
  if 97 ≤ n ∧ n ≤ 122 then Char.ofNat (n - 32)
  else if 0x430 ≤ n ∧ n ≤ 0x44F then Char.ofNat (n - 0x20)
  else if 0x450 ≤ n ∧ n ≤ 0x45F then Char.ofNat (n - 0x50)
  else if 0x460 ≤ n ∧ n ≤ 0x4FF ∧ n % 2 = 1 then Char.ofNat (n - 1)
  else c

/-- Substring test on character lists: does `pat` occur inside the list? -/
def containsSub (pat : List Char) : List Char → Bool
  | [] => pat.isEmpty
  | c :: t => pat.isPrefixOf (c :: t) || containsSub pat t

def lowerList (s : String) : List Char := s.data.map lowerChar

/-- Postgres `col ILIKE '%kw%'`: case-insensitive substring match. -/
def ilike (text kw : String) : Bool :=
  containsSub (lowerList kw) (lowerList text)

/-- Python `kw in text.lower()` for an already lower-case keyword `kw`. -/
def pyLowerContains (text kw : String) : Bool :=
  containsSub kw.data (lowerList text)

/-! ## Company-name canonicalization (src/scrapers/base.py) -/

/-- Characters removed by the `_QUOTES` regex class. -/
def quoteChars : List Char := ['«', '»', '\"', '\'']

/-- The alternatives of the `_LEGAL_FORMS` regex (matched case-insensitively
between word boundaries). -/
def legalForms : List String :=
  ["OOO", "MCHJ", "МЧЖ", "ООО", "ОАО", "АО", "АЖ", "AJ", "QK", "QMJ",
   "ХК", "XK", "GmbH", "LLC", "ЯТТ", "YaTT", "ЧП", "XP"]

/-- Python regex `\w` over the alphabets in play: ASCII alphanumerics,
underscore, and the Cyrillic block. -/
def isWordChar (c : Char) : Bool :=
  c.isAlphanum || c == '_' ||
    (decide (0x400 ≤ c.toNat) && decide (c.toNat ≤ 0x4FF))

/-- Splits a character list into maximal runs of word / non-word characters,
each run tagged with whether it is a word run. -/
def splitRunsAux (b : Bool) (acc : List Char) : List Char → List (Bool × List Char)
  | [] => [(b, acc.reverse)]
  | c :: t =>
    if isWordChar c == b then splitRunsAux b (c :: acc) t
    else (b, acc.reverse) :: splitRunsAux (isWordChar c) [c] t

def splitRuns : List Char → List (Bool × List Char)
  | [] => []
  | c :: t => splitRunsAux (isWordChar c) [c] t

/-- `_LEGAL_FORMS.sub("", name)`: a `\b(FORM)\b` match is exactly a maximal
word run equal (case-insensitively) to one of the forms, so substitution
deletes those runs. -/
def removeLegalForms (l : List Char) : List Char :=
  ((splitRuns l).map (fun br =>
    if br.1 && legalForms.any (fun f => f.data.map lowerChar == br.2.map lowerChar)
    then [] else br.2)).flatten

/-- `_EXTRA_SPACES.sub(" ", ...)`: collapse each whitespace run to one space.
The flag records whether the previous character was whitespace. -/
def collapseSpacesAux : Bool → List Char → List Char
  | _, [] => []
  | prevWs, c :: t =>
    if c.isWhitespace then
      if prevWs then collapseSpacesAux true t
      else ' ' :: collapseSpacesAux true t
    else c :: collapseSpacesAux false t

/-- Python `str.strip()`. -/
def stripWs (l : List Char) : List Char :=
  ((l.dropWhile Char.isWhitespace).reverse.dropWhile Char.isWhitespace).reverse

/-- Normalise a company name: strip legal forms, quotes, extra spaces,
upper-case (translation of `clean_company_name`). -/
def clean_company_name (raw : String) : String :=
  let noQuotes := raw.data.filter (fun c => !(quoteChars.contains c))
  let noForms := removeLegalForms noQuotes
  let collapsed := collapseSpacesAux false noForms
  String.mk ((stripWs collapsed).map upperChar)

/-! ## Company rows and the identity-resolver upserts -/

structure Company where
  stir : String
  canonical_name : String
  raw_names : List String
  region : Option String
  company_type : String
  rating_letter : Option String
  rating_score : Option Rat
  rating_fetched : Bool
  source : Option String
  total_wins : Nat
  total_contract_value : Rat
  avg_discount_pct : Option Rat
  first_tender_date : Option Int
  last_tender_date : Option Int
  active_regions : List String
  employee_count : Option Nat
  specialist_count : Option Nat
deriving Repr, DecidableEq

/-- A freshly inserted row: columns the INSERT does not list take the schema
defaults documented by the data model (`company_type` starts `unknown`,
counters start at zero, everything else null). -/
def Company.new (stir canonical : String) (rawName : String) : Company :=
  { stir := stir, canonical_name := canonical, raw_names := [rawName],
    region := none, company_type := "unknown", rating_letter := none,
    rating_score := none, rating_fetched := false, source := none,
    total_wins := 0, total_contract_value := 0, avg_discount_pct := none,
    first_tender_date := none, last_tender_date := none, active_regions := [],
    employee_count := none, specialist_count := none }

/-- Merge of `upsert_company`'s `ON CONFLICT (stir) DO UPDATE` branch
(src/scrapers/base.py): append the raw name unless already contained,
`region = COALESCE(companies.region, EXCLUDED.region)`; no other column
is touched. -/
def upsert_company_merge (c : Company) (raw_name : String)
    (region : Option String) : Company :=
  { c with
    raw_names := if c.raw_names.contains raw_name then c.raw_names
                 else c.raw_names ++ [raw_name],
    region := c.region <|> region }

/-- Insert company or update its raw_names array if it already exists
(translation of `BaseScraper.upsert_company`). -/
def upsert_company (db : List Company) (stir raw_name source : String)
    (region : Option String) : List Company :=
  let canonical := clean_company_name raw_name
  if db.any (fun c => c.stir == stir) then
    db.map (fun c => if c.stir == stir then upsert_company_merge c raw_name region else c)
  else
    db ++ [{ Company.new stir canonical raw_name with
             region := region, source := some source }]

/-- Merge of `_store_listing_company`'s `ON CONFLICT (stir) DO UPDATE`
branch (src/scrapers/reyting.py): longer canonical name wins, raw names
union, `region = COALESCE(EXCLUDED.region, companies.region)`, rating
fields coalesce incoming-first, `source` becomes `both` when the stored
tag is `etender`. -/
def store_listing_company_merge (c : Company) (canonical raw_name : String)
    (region rating : Option String) (score : Option Rat) : Company :=
  { c with
    canonical_name := if canonical.length > c.canonical_name.length then canonical
                      else c.canonical_name,
    raw_names := if c.raw_names.contains raw_name then c.raw_names
                 else c.raw_names ++ [raw_name],
    region := region <|> c.region,
    rating_letter := rating <|> c.rating_letter,
    rating_score := score <|> c.rating_score,
    rating_fetched := true,
    source := if c.source == some "etender" then some "both"
              else (c.source <|> some "reyting") }

/-- Store a company from the reyting listing API (translation of
`ReytingScraper._store_listing_company`, after field extraction). -/
def store_listing_company (db : List Company) (inn name : String)
    (rating : Option String) (score : Option Rat) (region : Option String) :
    List Company :=
  if inn == "" || inn.length > 9 then db
  else
    let canonical := clean_company_name name
    if db.any (fun c => c.stir == inn) then
      db.map (fun c => if c.stir == inn then
        store_listing_company_merge c canonical name region rating score else c)
    else
      db ++ [{ Company.new inn canonical name with
               region := region, rating_letter := rating, rating_score := score,
               rating_fetched := true, source := some "reyting" }]

structure Deal where
  deal_id : Int
  start_cost : Rat
  deal_cost : Rat
  customer_name : String
  provider_stir : Option String
  provider_name : String
  deal_date : Option Int
  deal_description : String
  participants_count : Nat
  region : Option String
deriving Repr, DecidableEq

/-- The `ON CONFLICT (deal_id) DO UPDATE` branch of `_store_deal`
(src/scrapers/etender.py): every listed column — `region` included — is
overwritten with the incoming (`EXCLUDED`) value; `provider_stir` is not in
the SET list and keeps its stored value. -/
def store_deal_merge (old incoming : Deal) : Deal :=
  { old with
    start_cost := incoming.start_cost,
    deal_cost := incoming.deal_cost,
    customer_name := incoming.customer_name,
    provider_name := incoming.provider_name,
    deal_date := incoming.deal_date,
    deal_description := incoming.deal_description,
    participants_count := incoming.participants_count,
    region := incoming.region }

/-! ## Region tables (src/config.py) -/

def regions_table : List String :=
  ["Тошкент шахар", "Тошкент вилояти",
   "Самарқанд", "Бухоро", "Фарғона",
   "Андижон", "Наманган", "Қашқадарё",
   "Сурхондарё", "Жиззах", "Сирдарё",
   "Навоий", "Хоразм", "Қорақалпоғистон",
   "Toshkent", "Samarqand", "Buxoro", "Farg'ona",
   "Andijon", "Namangan", "Qashqadaryo",
   "Surxondaryo", "Jizzax", "Sirdaryo",
   "Navoiy", "Xorazm", "Qoraqalpog'iston"]

def region_normalization : List (String × String) :=
  [("Toshkent", "Тошкент шахар"),
   ("Toshkent shahri", "Тошкент шахар"),
   ("Toshkent viloyati", "Тошкент вилояти"),
   ("Samarqand", "Самарқанд"),
   ("Buxoro", "Бухоро"),
   ("Farg'ona", "Фарғона"),
   ("Andijon", "Андижон"),
   ("Namangan", "Наманган"),
   ("Qashqadaryo", "Қашқадарё"),
   ("Surxondaryo", "Сурхондарё"),
   ("Jizzax", "Жиззах"),
   ("Sirdaryo", "Сирдарё"),
   ("Navoiy", "Навоий"),
   ("Xorazm", "Хоразм"),
   ("Qoraqalpog'iston", "Қорақалпоғистон"),
   ("Samarqand viloyati", "Самарқанд"),
   ("Buxoro viloyati", "Бухоро"),
   ("Farg'ona viloyati", "Фарғона"),
   ("Andijon viloyati", "Андижон"),
   ("Namangan viloyati", "Наманган"),
   ("Qashqadaryo viloyati", "Қашқадарё"),
   ("Surxondaryo viloyati", "Сурхондарё"),
   ("Jizzax viloyati", "Жиззах"),
   ("Sirdaryo viloyati", "Сирдарё"),
   ("Navoiy viloyati", "Навоий"),
   ("Xorazm viloyati", "Хоразм"),
   ("Qoraqalpog'iston Respublikasi", "Қорақалпоғистон"),
   ("Ташкент", "Тошкент шахар"),
   ("Ташкентская", "Тошкент вилояти"),
   ("Самарканд", "Самарқанд"),
   ("Самаркандская", "Самарқанд"),
   ("Бухарская", "Бухоро"),
   ("Бухарский", "Бухоро"),
   ("Ферганская", "Фарғона"),
   ("Андижанская", "Андижон"),
   ("Наманганская", "Наманган"),
   ("Кашкадарьинская", "Қашқадарё"),
   ("Сурхандарьинская", "Сурхондарё"),
   ("Сурхандарынская", "Сурхондарё"),
   ("Джизакская", "Жиззах"),
   ("Сырдарьинская", "Сирдарё"),
   ("Навоийская", "Навоий"),
   ("Хорезмская", "Хоразм"),
   ("Каракалпакстан", "Қорақалпоғистон"),
   ("Нукус", "Қорақалпоғистон")]

def district_to_region : List (String × String) :=
  [("Сергели", "Тошкент шахар"), ("Юнусабад", "Тошкент шахар"),
   ("Чиланзар", "Тошкент шахар"), ("Мирзо Улугбек", "Тошкент шахар"),
   ("Яккасарай", "Тошкент шахар"), ("Шайхантахур", "Тошкент шахар"),
   ("Алмазар", "Тошкент шахар"), ("Учтепа", "Тошкент шахар"),
   ("Бектемир", "Тошкент шахар"), ("Мирабад", "Тошкент шахар"),
   ("Яшнабад", "Тошкент шахар"), ("Chilonzor", "Тошкент шахар"),
   ("Sergeli", "Тошкент шахар"), ("Yunusobod", "Тошкент шахар"),
   ("Олмазор", "Тошкент шахар"),
   ("Карши", "Қашқадарё"), ("Термез", "Сурхондарё"),
   ("Нукус", "Қорақалпоғистон"), ("Nukus", "Қорақалпоғистон"),
   ("Олмалиқ", "Тошкент вилояти"), ("Ангрен", "Тошкент вилояти"),
   ("Чирчик", "Тошкент вилояти"), ("Алмалык", "Тошкент вилояти"),
   ("Olmaliq", "Тошкент вилояти"), ("Chirchiq", "Тошкент вилояти"),
   ("Angren", "Тошкент вилояти")]

/-- Try to extract an Uzbekistan region name from free text (translation of
`extract_region` in src/scrapers/base.py). -/
def extract_region (text : String) : Option String :=
  if text == "" then none
  else regions_table.find? (fun region => pyLowerContains text (String.mk (lowerList region)))

/-! ## Python dict semantics for the pattern tables

`fill_missing_regions` builds `all_patterns` as a Python dict; a dict keeps
first-insertion order and an insert of an existing key updates its value in
place. -/

def dictGet (l : List (String × String)) (k : String) : Option String :=
  (l.find? (fun p => p.1 == k)).map (fun p => p.2)

def dictInsert (l : List (String × String)) (k v : String) : List (String × String) :=
  if l.any (fun p => p.1 == k) then
    l.map (fun p => if p.1 == k then (k, v) else p)
  else l ++ [(k, v)]

/-- Python `{**a, **b}`. -/
def dictMerge (a b : List (String × String)) : List (String × String) :=
  b.foldl (fun acc p => dictInsert acc p.1 p.2) a

/-- The `all_patterns` dict of `fill_missing_regions`: direct region names
(mapped through the normalization table), then every normalization and
district pattern. -/
def all_patterns : List (String × String) :=
  let base := regions_table.foldl
    (fun acc r => dictInsert acc r ((dictGet region_normalization r).getD r)) []
  (dictMerge region_normalization district_to_region).foldl
    (fun acc p => dictInsert acc p.1 p.2) base

/-! ## Region resolution engine (src/pipeline/enrich.py) -/

structure EnrichState where
  deals : List Deal
  companies : List Company
deriving Repr, DecidableEq

/-- One `UPDATE tender_results SET region = canonical WHERE region = variant`
statement of Layer 1. -/
def normalizeDealsStep (deals : List Deal) (variant canonical : String) :
    List Deal × Nat :=
  (deals.map (fun d => if d.region == some variant
                       then { d with region := some canonical } else d),
   (deals.filter (fun d => d.region == some variant)).length)

/-- Layer 2 lookup: `FROM companies c WHERE t.provider_stir = c.stir AND
c.region IS NOT NULL`. -/
def providerRegion (companies : List Company) (d : Deal) : Option String :=
  match companies.find? (fun c => some c.stir == d.provider_stir && !(c.region == none)) with
  | some c => c.region
  | none => none

/-- One Layer 3 `UPDATE ... WHERE region IS NULL AND (customer_name ILIKE
pattern OR deal_description ILIKE pattern)` statement. -/
def textFillStep (deals : List Deal) (pattern canonical : String) :
    List Deal × Nat :=
  let cond := fun (d : Deal) =>
    d.region == none && (ilike d.customer_name pattern || ilike d.deal_description pattern)
  (deals.map (fun d => if cond d then { d with region := some canonical } else d),
   (deals.filter cond).length)

/-- Layer 1 over tender_results: the chain of normalization UPDATEs, in
table order, accumulating the updated-row count. -/
def layer1_deals (deals : List Deal) : List Deal × Nat :=
  region_normalization.foldl
    (fun (acc : List Deal × Nat) p =>
      let step := normalizeDealsStep acc.1 p.1 p.2
      (step.1, acc.2 + step.2))
    (deals, 0)

/-- Layer 1 over companies (its count is not reported). -/
def layer1_companies (companies : List Company) : List Company :=
  region_normalization.foldl
    (fun (acc : List Company) p =>
      acc.map (fun c => if c.region == some p.1 then { c with region := some p.2 } else c))
    companies

/-- Layer 2 row update: fill a NULL region from the provider company. -/
def layer2_fn (companies : List Company) (d : Deal) : Deal :=
  if d.region == none then
    match providerRegion companies d with
    | some r => { d with region := some r }
    | none => d
  else d

def layer2_deals (companies : List Company) (deals : List Deal) : List Deal × Nat :=
  (deals.map (layer2_fn companies),
   (deals.filter (fun d => d.region == none && (providerRegion companies d).isSome)).length)

/-- Layer 3: the chain of text-extraction UPDATEs over `all_patterns`. -/
def layer3_deals (deals : List Deal) : List Deal × Nat :=
  all_patterns.foldl
    (fun (acc : List Deal × Nat) p =>
      let step := textFillStep acc.1 p.1 p.2
      (step.1, acc.2 + step.2))
    (deals, 0)

/-- Fill NULL regions on tender_results using multiple fallback layers
(translation of `EnrichmentPipeline.fill_missing_regions`); returns the new
state and the total rows-updated count the function reports. -/
def fill_missing_regions (st : EnrichState) : EnrichState × Nat :=
  let l1 := layer1_deals st.deals
  let companies1 := layer1_companies st.companies
  let l2 := layer2_deals companies1 l1.1
  let l3 := layer3_deals l2.1
  (⟨l3.1, companies1⟩, l1.2 + l2.2 + l3.2)

/-! ## Classification engine (src/pipeline/enrich.py) -/

/-- The `keyword_to_type` table of `classify_company_types`, in source
order. -/
def keyword_to_type : List (String × String) :=
  [("laboratoriya", "laboratory"), ("лаборатор", "laboratory"),
   ("laboratory", "laboratory"), ("испытат", "laboratory"),
   ("sinov", "laboratory"),
   ("baholash", "assessor"), ("baho", "assessor"),
   ("оценк", "assessor"), ("оценоч", "assessor"),
   ("assessment", "assessor"), ("evaluation", "assessor"),
   ("konsalting", "consultant"), ("консалтинг", "consultant"),
   ("consulting", "consultant"), ("консультац", "consultant"),
   ("ekspertiza", "consultant"), ("ekspert", "consultant"),
   ("экспертиз", "consultant"),
   ("expertise", "consultant"), ("аудит", "consultant"), ("audit", "consultant")]

/-- `config.non_contractor_keywords` (src/config.py). -/
def non_contractor_keywords : List String :=
  ["baholash", "baho", "sinov", "laboratoriya", "ekspertiza", "ekspert",
   "konsalting", "tekshirish", "nazorat", "sertifikat", "standart", "metrologiya",
   "оценк", "оценоч", "испытат", "лаборатор", "экспертиз", "консалтинг",
   "консультац", "инспекц", "сертифик", "стандарт", "метролог",
   "надзор", "аудит", "мониторинг",
   "consulting", "assessment", "laboratory", "evaluation", "inspection",
   "certification", "expertise", "audit", "monitoring"]

/-- `jsonb::text` rendering of the raw_names array, the text the
`c.raw_names::text ILIKE $i` condition scans. -/
def raw_names_text (names : List String) : String :=
  "[" ++ String.intercalate ", " (names.map (fun nm => "\"" ++ nm ++ "\"")) ++ "]"

/-- One ILIKE condition of a classification pass:
`c.canonical_name ILIKE kw OR c.raw_names::text ILIKE kw`. -/
def matches_keyword (c : Company) (kw : String) : Bool :=
  ilike c.canonical_name kw || ilike (raw_names_text c.raw_names) kw

def matches_any (c : Company) (kws : List String) : Bool :=
  kws.any (matches_keyword c)

def type_keywords (t : String) : List String :=
  (keyword_to_type.filter (fun p => p.2 == t)).map (fun p => p.1)

/-- The keywords of `non_contractor_keywords` not in `keyword_to_type`,
driving the catch-all `'other'` pass. -/
def remaining_keywords : List String :=
  non_contractor_keywords.filter (fun kw => !(keyword_to_type.any (fun p => p.1 == kw)))

def non_contractor_types : List String :=
  ["consultant", "laboratory", "assessor", "other"]

def set_type (c : Company) (t : String) : Company :=
  { c with company_type := t }

/-- The WHERE clause of one pass-1 bulk UPDATE: a keyword of subtype `t`
matches and the row does not already carry `t`. -/
def subtype_cond (t : String) (c : Company) : Bool :=
  matches_any c (type_keywords t) && c.company_type != t

def subtype_step (t : String) (c : Company) : Company :=
  if subtype_cond t c then set_type c t else c

/-- One pass-1 bulk UPDATE: set `company_type = t` on every matching row,
counting the updated rows. -/
def pass_subtype (t : String) (db : List Company) : List Company × Nat :=
  (db.map (subtype_step t), (db.filter (subtype_cond t)).length)

/-- The WHERE clause of the catch-all pass: a remaining negative keyword
matches and the row carries no non-contractor label yet. -/
def other_cond (c : Company) : Bool :=
  matches_any c remaining_keywords && !(non_contractor_types.contains c.company_type)

def other_step (c : Company) : Company :=
  if other_cond c then set_type c "other" else c

def pass_other (db : List Company) : List Company × Nat :=
  (db.map other_step, (db.filter other_cond).length)

/-- The WHERE clause of pass 2: rated, no non-contractor label, not yet
`'contractor'`. -/
def contractor_cond (c : Company) : Bool :=
  c.rating_score.isSome && !(non_contractor_types.contains c.company_type)
    && c.company_type != "contractor"

def contractor_step (c : Company) : Company :=
  if contractor_cond c then set_type c "contractor" else c

def pass_contractor (db : List Company) : List Company × Nat :=
  (db.map contractor_step, (db.filter contractor_cond).length)

/-- Classify companies as contractor, consultant, laboratory, assessor, etc.
(translation of `EnrichmentPipeline.classify_company_types`): the three
subtype passes in source order, the `'other'` pass, the contractor pass;
returns the new table and the total updated-row count the function
reports (pass 3 only counts, it writes nothing). -/
def classify_company_types (db : List Company) : List Company × Nat :=
  let p1 := pass_subtype "laboratory" db
  let p2 := pass_subtype "assessor" p1.1
  let p3 := pass_subtype "consultant" p2.1
  let p4 := pass_other p3.1
  let p5 := pass_contractor p4.1
  (p5.1, p1.2 + p2.2 + p3.2 + p4.2 + p5.2)

/-! ## Aggregation engine (src/pipeline/enrich.py) -/

/-- The `WHERE deal_date >= CURRENT_DATE - make_interval(months => ...)`
filter; a NULL date compares to NULL and is excluded. -/
def in_window (cutoff : Int) (d : Deal) : Bool :=
  match d.deal_date with
  | some t => decide (cutoff ≤ t)
  | none => false

/-- The rows of one `GROUP BY provider_stir` group. -/
def deals_for (s : String) (deals : List Deal) (cutoff : Int) : List Deal :=
  deals.filter (fun d => d.provider_stir == some s && in_window cutoff d)

/-- `COUNT(*) AS win_count`. -/
def win_count (s : String) (deals : List Deal) (cutoff : Int) : Nat :=
  (deals_for s deals cutoff).length

/-- `COALESCE(SUM(deal_cost), 0) AS total_value`. -/
def total_value (s : String) (deals : List Deal) (cutoff : Int) : Rat :=
  ((deals_for s deals cutoff).map Deal.deal_cost).sum

/-- The non-NULL values of
`CASE WHEN start_cost > 0 THEN (start_cost - deal_cost) / start_cost * 100 END`
over a group; SQL `AVG` ignores the NULL rows. -/
def discount_samples (group : List Deal) : List Rat :=
  group.filterMap (fun d =>
    if 0 < d.start_cost then some ((d.start_cost - d.deal_cost) / d.start_cost * 100)
    else none)

/-- Postgres `ROUND(numeric, 2)`: half away from zero at two decimals. -/
def round2 (q : Rat) : Rat :=
  (if 0 ≤ q then ((⌊q * 100 + 1/2⌋ : Int) : Rat)
   else -((⌊-q * 100 + 1/2⌋ : Int) : Rat)) / 100

/-- `ROUND(AVG(CASE ...), 2) AS avg_discount`: NULL when every sample is
NULL. -/
def avg_discount (s : String) (deals : List Deal) (cutoff : Int) : Option Rat :=
  let xs := discount_samples (deals_for s deals cutoff)
  if xs.length = 0 then none else some (round2 (xs.sum / (xs.length : Rat)))

def min_date (group : List Deal) : Option Int :=
  match group.filterMap Deal.deal_date with
  | [] => none
  | x :: xs => some (xs.foldl min x)

def max_date (group : List Deal) : Option Int :=
  match group.filterMap Deal.deal_date with
  | [] => none
  | x :: xs => some (xs.foldl max x)

/-- Aggregate tender wins, value, discount into companies (translation of
`EnrichmentPipeline.aggregate_tender_stats`): first reset every company
with non-zero aggregates, then set real values for companies owning a
group; returns the new state and the updated-row count of the second
UPDATE. -/
def aggregate_tender_stats (st : EnrichState) (cutoff : Int) : EnrichState × Nat :=
  let reset := st.companies.map (fun c =>
    if c.total_wins > 0 || 0 < c.total_contract_value then
      { c with total_wins := 0, total_contract_value := 0, avg_discount_pct := none,
               first_tender_date := none, last_tender_date := none }
    else c)
  let updated := reset.map (fun c =>
    let group := deals_for c.stir st.deals cutoff
    if group.isEmpty then c
    else
      { c with total_wins := win_count c.stir st.deals cutoff,
               total_contract_value := total_value c.stir st.deals cutoff,
               avg_discount_pct := avg_discount c.stir st.deals cutoff,
               first_tender_date := min_date group,
               last_tender_date := max_date group })
  (⟨st.deals, updated⟩,
   (reset.filter (fun c => !(deals_for c.stir st.deals cutoff).isEmpty)).length)

/-! ## Retrying fetch client (src/scrapers/base.py, `_request`)

One HTTP attempt either yields a response with a status code or fails in
transport. The loop raises `HTTPStatusError` itself for 429/500/502/503 and
lets `raise_for_status` raise the same exception class for every other
error status; the `except` clause catches `HTTPStatusError`, `ConnectError`
and `ReadTimeout` alike, so an attempt succeeds exactly when it returns a
non-error response. -/

inductive FetchOutcome where
  | resp (status : Nat)
  | connect_error
  | read_timeout
deriving Repr, DecidableEq

/-- Whether the attempt falls into the `except` clause. -/
def outcome_fails : FetchOutcome → Bool
  | .resp s => [429, 500, 502, 503].contains s || decide (400 ≤ s)
  | .connect_error => true
  | .read_timeout => true

/-- What the loop did: attempts actually performed, the backoff sleeps in
order, and whether a response was returned. -/
structure FetchTrace where
  attempts : Nat
  sleeps : List Rat
  ok : Bool
deriving Repr, DecidableEq

/-- The `for attempt in range(1, retries + 1)` loop: `fuel` is the number of
attempts still allowed, `i` the current attempt number, `d` the current
delay. On the last allowed attempt a failure re-raises without sleeping;
otherwise the loop sleeps `d`, doubles the delay and retries. -/
def request_loop (outcomes : Nat → FetchOutcome) : Nat → Nat → Rat → FetchTrace
  | 0, _, _ => ⟨0, [], false⟩
  | fuel + 1, i, d =>
    if outcome_fails (outcomes i) then
      if fuel = 0 then ⟨1, [], false⟩
      else
        let r := request_loop outcomes fuel (i + 1) (2 * d)
        ⟨r.attempts + 1, d :: r.sleeps, r.ok⟩
    else ⟨1, [], true⟩

/-- Execute a request with retry (translation of `BaseScraper._request`):
attempt numbering starts at 1, the delay starts at 1.0 and doubles after
each failed attempt. -/
def request (outcomes : Nat → FetchOutcome) (retries : Nat) : FetchTrace :=
  request_loop outcomes retries 1 1

/-! ## Range-paginated deals controller (src/scrapers/etender.py) -/

def construction_keywords : List String :=
  ["qurilish", "строительств", "ta'mir", "tamir", "ta'mirlash", "ремонт",
   "школ", "дорог", "больниц", "мост", "ирригаци",
   "бино", "здани", "сооружени", "подстанци",
   "канализаци", "водоснабж", "газоснабж", "теплоснабж",
   "тепловых сет", "котельн", "насос",
   "электромонтаж", "монтаж", "демонтаж",
   "кровл", "фасад", "отделк", "бетон", "асфальт",
   "перекладк", "благоустройств", "трансформатор",
   "o'rnatish"]

def non_construction_keywords : List String :=
  ["питан", "овқатлантириш", "catering", "ошхона",
   "сервер", "компьютер", "принтер", "оргтехник", "программ",
   "перевозк", "ташиш", "транспортир",
   "медицин", "фармацевтик", "дори",
   "мебел", "канцеляр",
   "топлив", "ёнилғи", "бензин"]

/-- The raw upstream fields the construction filter reads. -/
structure RawDeal where
  category_name : String
  customer_name : String
  provider_name : String
deriving Repr, DecidableEq

/-- Two-tier construction deal filter (translation of
`ETenderScraper.is_construction_deal`). -/
def is_construction_deal (d : RawDeal) : Bool :=
  let category := d.category_name
  let is_non_construction := non_construction_keywords.any (pyLowerContains category)
  if construction_keywords.any (pyLowerContains category) then !is_non_construction
  else
    let secondary := d.customer_name ++ " " ++ d.provider_name
    if construction_keywords.any (pyLowerContains secondary) then !is_non_construction
    else false

/-- How `_store_deal` ends for one accepted deal: fresh insert, upsert of an
existing row, or a raised exception. The loop model takes this as an
oracle. -/
inductive StoreResult where
  | inserted
  | updated
  | errored
deriving Repr, DecidableEq

structure ScrapeStats where
  found : Nat
  inserted : Nat
  updated : Nat
  skipped : Nat
  failed : Nat
deriving Repr, DecidableEq

/-- Per-page handling inside a batch of `scrape_all`: an exception counts as
failed and leaves the all-empty flag; an empty item list leaves the flag; a
non-empty list clears the flag and runs every deal through the filter and
the store oracle. -/
def process_result (store : RawDeal → StoreResult)
    (acc : ScrapeStats × Bool) (r : Except Unit (List RawDeal)) :
    ScrapeStats × Bool :=
  match r with
  | .error _ => ({ acc.1 with failed := acc.1.failed + 1 }, acc.2)
  | .ok items =>
    if items.isEmpty then acc
    else
      (items.foldl (fun st deal =>
        let st := { st with found := st.found + 1 }
        if is_construction_deal deal then
          match store deal with
          | .inserted => { st with inserted := st.inserted + 1 }
          | .updated => { st with updated := st.updated + 1 }
          | .errored => { st with failed := st.failed + 1 }
        else { st with skipped := st.skipped + 1 }) acc.1,
       false)

/-- The `while page <= total_pages` loop of `scrape_all`: fetch a batch of
`min(concurrency, total_pages - page + 1)` pages, fold the results, then
either break after the third consecutive fully-empty batch (before the page
advance — the returned page is the batch's first page) or advance. Returns
(stats, page at exit, whether the empty-streak break fired). `fuel` bounds
the iteration count; the loop advances at least one page per iteration, so
`total_pages + 1` is always enough. -/
def scrape_loop (fetch : Nat → Except Unit (List RawDeal))
    (store : RawDeal → StoreResult) (concurrency total_pages : Nat) :
    Nat → Nat → Nat → ScrapeStats → ScrapeStats × Nat × Bool
  | 0, page, _, stats => (stats, page, false)
  | fuel + 1, page, streak, stats =>
    if page ≤ total_pages then
      let batch_size := min concurrency (total_pages - page + 1)
      let results := (List.range' page batch_size).map fetch
      let folded := results.foldl (process_result store) (stats, true)
      if folded.2 then
        if 3 ≤ streak + 1 then (folded.1, page, true)
        else scrape_loop fetch store concurrency total_pages fuel (page + batch_size) (streak + 1) folded.1
      else scrape_loop fetch store concurrency total_pages fuel (page + batch_size) 0 folded.1
    else (stats, page, false)

/-- Scrape all pages, filter construction deals, store (translation of
`ETenderScraper.scrape_all` with `start_page = 1` and no `max_pages` cap);
the network and the deal store are oracles. -/
def scrape_all (fetch : Nat → Except Unit (List RawDeal))
    (store : RawDeal → StoreResult) (concurrency total_pages : Nat) :
    ScrapeStats × Nat × Bool :=
  scrape_loop fetch store concurrency total_pages (total_pages + 1) 1 0 ⟨0, 0, 0, 0, 0⟩

/-! ## Lemmas: the classification engine as a per-row function

Every pass of `classify_company_types` only rewrites `company_type`, so the
whole run acts row-wise; `final_label` is the label one run leaves on a row
as a function of its keyword-match flags, rating flag and current label. -/
theorem set_type_self (c : Company) : set_type c c.company_type = c := rfl

theorem set_type_set_type (c : Company) (a b : String) :
    set_type (set_type c a) b = set_type c b := rfl

theorem set_type_company_type (c : Company) (t : String) :
    (set_type c t).company_type = t := rfl

theorem matches_any_set_type (c : Company) (t : String) (kws : List String) :
    matches_any (set_type c t) kws = matches_any c kws := rfl

theorem rating_score_set_type (c : Company) (t : String) :
    (set_type c t).rating_score = c.rating_score := rfl

theorem subtype_step_eq (t : String) (c : Company) :
    subtype_step t c = if matches_any c (type_keywords t) then set_type c t else c := by
  unfold subtype_step subtype_cond
  cases h : matches_any c (type_keywords t) with
  | false => simp [h]
  | true =>
    simp only [h, Bool.true_and, if_true]
    cases ht : c.company_type != t with
    | true => simp
    | false =>
      have heq : c.company_type = t := bne_eq_false_iff_eq.mp ht
      simp only [Bool.false_eq_true, if_false]
      rw [← heq]
      exact (set_type_self c).symm

def classify_step (c : Company) : Company :=
  contractor_step (other_step (subtype_step "consultant"
    (subtype_step "assessor" (subtype_step "laboratory" c))))

theorem classify_fst (db : List Company) :
    (classify_company_types db).1 = db.map classify_step := by
  show ((((db.map (subtype_step "laboratory")).map (subtype_step "assessor")).map
      (subtype_step "consultant")).map other_step).map contractor_step = db.map classify_step
  simp only [List.map_map]
  rfl

/-- The label the three subtype passes leave on a row whose keyword-match
flags are `L`, `A`, `C` and whose label was `t`. -/
def label1 (L A C : Bool) (t : String) : String :=
  if C then "consultant" else if A then "assessor" else if L then "laboratory" else t

def label2 (O : Bool) (t : String) : String :=
  if O && !(non_contractor_types.contains t) then "other" else t

def label3 (R : Bool) (t : String) : String :=
  if R && !(non_contractor_types.contains t) && t != "contractor" then "contractor" else t

/-- The label one full classification run leaves on a row with match flags
`L`, `A`, `C`, `O`, rating flag `R` and current label `t`. -/
def final_label (L A C O R : Bool) (t : String) : String :=
  label3 R (label2 O (label1 L A C t))

theorem subtype_chain_set_type (c : Company) (l : String) :
    subtype_step "consultant" (subtype_step "assessor"
      (subtype_step "laboratory" (set_type c l))) =
    set_type c (label1 (matches_any c (type_keywords "laboratory"))
      (matches_any c (type_keywords "assessor"))
      (matches_any c (type_keywords "consultant")) l) := by
  cases hL : matches_any c (type_keywords "laboratory") <;>
  cases hA : matches_any c (type_keywords "assessor") <;>
  cases hC : matches_any c (type_keywords "consultant") <;>
  simp only [subtype_step_eq, matches_any_set_type, hL, hA, hC, label1,
    Bool.false_eq_true, eq_self_iff_true, if_true, if_false, set_type_set_type]

theorem other_step_set_type (c : Company) (l : String) :
    other_step (set_type c l) =
      set_type c (label2 (matches_any c remaining_keywords) l) := by
  unfold other_step other_cond label2
  rw [matches_any_set_type, set_type_company_type, set_type_set_type, apply_ite (set_type c)]

theorem contractor_step_set_type (c : Company) (l : String) :
    contractor_step (set_type c l) =
      set_type c (label3 c.rating_score.isSome l) := by
  unfold contractor_step contractor_cond label3
  rw [rating_score_set_type, set_type_company_type, set_type_set_type, apply_ite (set_type c)]

theorem classify_step_set_type (c : Company) (l : String) :
    classify_step (set_type c l) =
      set_type c (final_label (matches_any c (type_keywords "laboratory"))
        (matches_any c (type_keywords "assessor"))
        (matches_any c (type_keywords "consultant"))
        (matches_any c remaining_keywords) c.rating_score.isSome l) := by
  unfold classify_step final_label
  rw [subtype_chain_set_type, other_step_set_type, contractor_step_set_type]

theorem classify_step_eq (c : Company) :
    classify_step c =
      set_type c (final_label (matches_any c (type_keywords "laboratory"))
        (matches_any c (type_keywords "assessor"))
        (matches_any c (type_keywords "consultant"))
        (matches_any c remaining_keywords) c.rating_score.isSome c.company_type) := by
  conv_lhs => rw [← set_type_self c]
  exact classify_step_set_type c c.company_type

theorem mem_oth : non_contractor_types.contains "other" = true := by decide

theorem mem_ctr : non_contractor_types.contains "contractor" = false := by decide

theorem l23_idem (O R : Bool) (t : String) :
    label3 R (label2 O (label3 R (label2 O t))) = label3 R (label2 O t) := by
  by_cases h : non_contractor_types.contains t = true
  · simp only [label2, label3, h, Bool.not_true, Bool.and_false, Bool.false_and,
      if_false, Bool.false_eq_true]
  · have h' : non_contractor_types.contains t = false := by
      simpa using h
    cases O with
    | true =>
      simp only [label2, h', Bool.not_false, Bool.and_true, if_true, mem_oth,
        Bool.not_true, Bool.and_false, label3, Bool.false_and, if_false,
        Bool.false_eq_true]
    | false =>
      simp only [label2, Bool.false_and, if_false, Bool.false_eq_true]
      cases R with
      | false =>
        simp only [label3, Bool.false_and, if_false, Bool.false_eq_true]
      | true =>
        cases hb : t != "contractor" with
        | false =>
          simp only [label3, h', hb, Bool.not_false, Bool.true_and, Bool.and_false,
            if_false, Bool.false_eq_true]
        | true =>
          simp only [label3, h', hb, Bool.not_false, Bool.true_and, Bool.and_true,
            if_true, eq_self_iff_true, mem_ctr, bne_self_eq_false, Bool.and_false,
            if_false, Bool.false_eq_true]

theorem final_label_idem (L A C O R : Bool) (t : String) :
    final_label L A C O R (final_label L A C O R t) = final_label L A C O R t := by
  unfold final_label
  cases C <;> cases A <;> cases L <;>
    (simp only [label1, Bool.false_eq_true, eq_self_iff_true, if_true, if_false];
     try exact l23_idem _ _ _)

theorem classify_step_idem (c : Company) :
    classify_step (classify_step c) = classify_step c := by
  rw [classify_step_eq c, classify_step_set_type, final_label_idem]

theorem mem_unknown : non_contractor_types.contains "unknown" = false := by decide

theorem contains_label1 (L A C : Bool) (t : String)
    (h : non_contractor_types.contains t = true) :
    non_contractor_types.contains (label1 L A C t) = true := by
  unfold label1
  split_ifs
  · decide
  · decide
  · decide
  · exact h

theorem contains_label2 (O : Bool) (t : String)
    (h : non_contractor_types.contains t = true) :
    non_contractor_types.contains (label2 O t) = true := by
  unfold label2
  split_ifs
  · decide
  · exact h

theorem label3_of_contains (R : Bool) (t : String)
    (h : non_contractor_types.contains t = true) :
    label3 R t = t := by
  unfold label3
  rw [h]
  simp

theorem contains_final_label (L A C O R : Bool) (t : String)
    (h : non_contractor_types.contains t = true) :
    non_contractor_types.contains (final_label L A C O R t) = true := by
  unfold final_label
  rw [label3_of_contains _ _ (contains_label2 _ _ (contains_label1 _ _ _ _ h))]
  exact contains_label2 _ _ (contains_label1 _ _ _ _ h)

/-- A sample company row: `LABORATORIYA EKSPERTIZA MCHJ` matches both a
laboratory keyword and a consultant keyword. -/
def lab_consult_demo : Company :=
  Company.new "111111111" "LABORATORIYA EKSPERTIZA" "LABORATORIYA EKSPERTIZA MCHJ"

set_option maxHeartbeats 4000000 in
/-- C4 counterexample part: the second run still reports 2 updated rows. -/
theorem classification_rerun_counterexample :
    (classify_company_types (classify_company_types [lab_consult_demo]).1).2 = 2 ∧
      (2 : Nat) ≠ 0 := by decide

/-- C4 amended part: the second run's final state is the first run's. -/
theorem classification_rerun_fixpoint (db : List Company) :
    (classify_company_types (classify_company_types db).1).1 =
      (classify_company_types db).1 := by
  rw [classify_fst db, classify_fst (db.map classify_step), List.map_map]
  refine List.map_congr_left (fun c _ => ?_)
  simp only [Function.comp_apply]
  exact classify_step_idem c

/-- C7: a company holding a non-contractor label keeps a non-contractor
label through any further classification run. -/
theorem monotonic_non_contractor (db : List Company) (i : Nat) (c : Company)
    (hc : db[i]? = some c)
    (h : non_contractor_types.contains c.company_type = true) :
    ∃ c', (classify_company_types db).1[i]? = some c' ∧
      c'.company_type ≠ "contractor" ∧ c'.company_type ≠ "unknown" := by
  refine ⟨classify_step c, ?_, ?_, ?_⟩
  · rw [classify_fst, List.getElem?_map, hc]
    rfl
  · intro hty
    have hmem : non_contractor_types.contains (classify_step c).company_type = true := by
      rw [classify_step_eq, set_type_company_type]
      exact contains_final_label _ _ _ _ _ _ h
    rw [hty] at hmem
    exact absurd hmem (by decide)
  · intro hty
    have hmem : non_contractor_types.contains (classify_step c).company_type = true := by
      rw [classify_step_eq, set_type_company_type]
      exact contains_final_label _ _ _ _ _ _ h
    rw [hty] at hmem
    exact absurd hmem (by decide)

theorem monotonic_non_contractor_witness :
    ∃ c', (classify_company_types [set_type lab_consult_demo "laboratory"]).1[0]? = some c' ∧
      c'.company_type ≠ "contractor" ∧ c'.company_type ≠ "unknown" :=
  monotonic_non_contractor [set_type lab_consult_demo "laboratory"] 0
    (set_type lab_consult_demo "laboratory") rfl (by decide)

/-! ## Region-preservation lemmas -/

theorem normalize_fold_preserves (i : Nat) (d : Deal) (r : String)
    (hr : d.region = some r) :
    ∀ (l : List (String × String)), (∀ p ∈ l, p.1 ≠ r) →
    ∀ (deals : List Deal) (n : Nat), deals[i]? = some d →
    (l.foldl (fun (acc : List Deal × Nat) p =>
        let step := normalizeDealsStep acc.1 p.1 p.2
        (step.1, acc.2 + step.2)) (deals, n)).1[i]? = some d := by
  intro l
  induction l with
  | nil => intro _ deals n hd; simpa using hd
  | cons p t ih =>
    intro hvar deals n hd
    simp only [List.foldl_cons]
    refine ih (fun q hq => hvar q (List.mem_cons_of_mem p hq))
      (normalizeDealsStep deals p.1 p.2).1 _ ?_
    unfold normalizeDealsStep
    rw [List.getElem?_map, hd, Option.map_some']
    have hne : (d.region == some p.1) = false := by
      rw [hr]
      have : p.1 ≠ r := hvar p (List.mem_cons_self p t)
      simp [this.symm]
    rw [hne]
    simp

theorem textfill_fold_preserves (i : Nat) (d : Deal) (r : String)
    (hr : d.region = some r) :
    ∀ (l : List (String × String)) (deals : List Deal) (n : Nat),
    deals[i]? = some d →
    (l.foldl (fun (acc : List Deal × Nat) p =>
        let step := textFillStep acc.1 p.1 p.2
        (step.1, acc.2 + step.2)) (deals, n)).1[i]? = some d := by
  intro l
  induction l with
  | nil => intro deals n hd; simpa using hd
  | cons p t ih =>
    intro deals n hd
    simp only [List.foldl_cons]
    refine ih (textFillStep deals p.1 p.2).1 _ ?_
    unfold textFillStep
    rw [List.getElem?_map, hd, Option.map_some']
    have hno : (d.region == none) = false := by rw [hr]; rfl
    simp [hno]

theorem layer2_preserves (companies : List Company) (i : Nat) (d : Deal)
    (r : String) (hr : d.region = some r) (deals : List Deal)
    (hd : deals[i]? = some d) :
    (layer2_deals companies deals).1[i]? = some d := by
  unfold layer2_deals layer2_fn
  rw [List.getElem?_map, hd, Option.map_some']
  have hno : (d.region == none) = false := by rw [hr]; rfl
  simp [hno]

/-- C1 amended: `fill_missing_regions` leaves a deal with a non-null region
untouched as long as that region is not a variant spelling listed in the
normalization table; `_store_deal`'s conflict branch instead always
overwrites `region` with the incoming value. -/
theorem region_stability_amended (st : EnrichState) (i : Nat) (d : Deal)
    (r : String) (hd : st.deals[i]? = some d) (hr : d.region = some r)
    (hvar : ∀ p ∈ region_normalization, p.1 ≠ r) :
    (fill_missing_regions st).1.deals[i]? = some d ∧
    ∀ old incoming : Deal, (store_deal_merge old incoming).region = incoming.region := by
  refine ⟨?_, fun old incoming => rfl⟩
  simp only [fill_missing_regions]
  exact textfill_fold_preserves i d r hr all_patterns _ 0
    (layer2_preserves _ i d r hr _
      (normalize_fold_preserves i d r hr region_normalization hvar st.deals 0 hd))

theorem region_stability_witness :
    (fill_missing_regions ⟨[⟨5, 100, 90, "customer", none, "prov", some 10, "desc", 1, some "Самарқанд"⟩], []⟩).1.deals[0]? =
      some ⟨5, 100, 90, "customer", none, "prov", some 10, "desc", 1, some "Самарқанд"⟩ ∧
    ∀ old incoming : Deal, (store_deal_merge old incoming).region = incoming.region :=
  region_stability_amended ⟨[⟨5, 100, 90, "customer", none, "prov", some 10, "desc", 1, some "Самарқанд"⟩], []⟩
    0 ⟨5, 100, 90, "customer", none, "prov", some 10, "desc", 1, some "Самарқанд"⟩
    "Самарқанд" rfl rfl (by decide)

set_option maxHeartbeats 4000000 in
set_option maxRecDepth 10000 in
/-- C1 counterexample: a deal whose region is the variant spelling
`Toshkent` leaves `fill_missing_regions` with region `Тошкент шахар` — a
different value, so a non-null region is not always preserved. -/
theorem region_stability_counterexample :
    ((fill_missing_regions ⟨[⟨1, 100, 90, "", none, "", none, "", 1, some "Toshkent"⟩], []⟩).1.deals.map
      Deal.region = [some "Тошкент шахар"]) ∧
    (some "Тошкент шахар" : Option String) ≠ some "Toshkent" := by
  decide

/-- C2 counterexample: a reyting listing merge with a non-null incoming
region overwrites the stored non-null region. -/
theorem region_merge_counterexample :
    ((store_listing_company
        (upsert_company [] "200000001" "TEST QURILISH" "etender" (some "Бухоро"))
        "200000001" "TEST QURILISH" (some "AA") (some 50) (some "Toshkent")).map
      Company.region = [some "Toshkent"]) ∧
    (some "Toshkent" : Option String) ≠ some "Бухоро" := by decide

/-- C2 amended: `upsert_company`'s merge is fill-only on region (a non-null
stored region survives any incoming value), while `_store_listing_company`'s
merge writes the incoming region whenever the incoming one is non-null. -/
theorem region_merge_amended (c : Company) (raw canonical nm : String)
    (inc rat : Option String) (sc : Option Rat) (r r2 : String)
    (hstored : c.region = some r) :
    (upsert_company_merge c raw inc).region = some r ∧
    (store_listing_company_merge c canonical nm (some r2) rat sc).region = some r2 := by
  constructor
  · show (c.region <|> inc) = some r
    rw [hstored]
    rfl
  · rfl

theorem region_merge_witness :
    (upsert_company_merge
        { Company.new "200000003" "BETA QURILISH" "BETA QURILISH" with region := some "Жиззах" }
        "BETA" (some "Наманган")).region = some "Жиззах" ∧
    (store_listing_company_merge
        { Company.new "200000003" "BETA QURILISH" "BETA QURILISH" with region := some "Жиззах" }
        "BETA QURILISH" "BETA" (some "Наманган") none none).region = some "Наманган" :=
  region_merge_amended
    { Company.new "200000003" "BETA QURILISH" "BETA QURILISH" with region := some "Жиззах" }
    "BETA" "BETA QURILISH" "BETA" (some "Наманган") none none "Жиззах" "Наманган" rfl

/-- The sleeps a run of failures produces: `d`, `2d`, `4d`, ... -/
def backoff_delays (d : Rat) : Nat → List Rat
  | 0 => []
  | n + 1 => d :: backoff_delays (2 * d) n

theorem backoff_delays_get (d : Rat) (n j : Nat) (hj : j < n) :
    (backoff_delays d n)[j]? = some (d * 2 ^ j) := by
  induction n generalizing d j with
  | zero => omega
  | succ m ih =>
    cases j with
    | zero => simp [backoff_delays]
    | succ k =>
      have := ih (2 * d) k (by omega)
      simp only [backoff_delays, List.getElem?_cons_succ, this]
      ring_nf

theorem request_loop_succ (outcomes : Nat → FetchOutcome) (fuel i : Nat) (d : Rat) :
    request_loop outcomes (fuel + 1) i d =
      if outcome_fails (outcomes i) then
        if fuel = 0 then ⟨1, [], false⟩
        else
          let r := request_loop outcomes fuel (i + 1) (2 * d)
          ⟨r.attempts + 1, d :: r.sleeps, r.ok⟩
      else ⟨1, [], true⟩ := rfl

theorem request_loop_all_fail (outcomes : Nat → FetchOutcome)
    (h : ∀ k, outcome_fails (outcomes k) = true) :
    ∀ (fuel : Nat), 1 ≤ fuel → ∀ (i : Nat) (d : Rat),
    request_loop outcomes fuel i d = ⟨fuel, backoff_delays d (fuel - 1), false⟩ := by
  intro fuel
  induction fuel with
  | zero => omega
  | succ m ih =>
    intro _ i d
    cases m with
    | zero => simp [request_loop_succ, h i, backoff_delays]
    | succ m' =>
      rw [request_loop_succ, if_pos (h i), if_neg (Nat.succ_ne_zero m')]
      rw [ih (by omega) (i + 1) (2 * d)]
      simp [backoff_delays]

theorem request_loop_mixed (outcomes : Nat → FetchOutcome) :
    ∀ (N : Nat) (fuel i : Nat) (d : Rat), N < fuel →
    (∀ k, k < N → outcome_fails (outcomes (i + k)) = true) →
    outcome_fails (outcomes (i + N)) = false →
    request_loop outcomes fuel i d = ⟨N + 1, backoff_delays d N, true⟩ := by
  intro N
  induction N with
  | zero =>
    intro fuel i d hf _ hs
    obtain ⟨f, rfl⟩ : ∃ f, fuel = f + 1 := ⟨fuel - 1, by omega⟩
    have h0 : outcome_fails (outcomes i) = false := by simpa using hs
    simp [request_loop_succ, h0, backoff_delays]
  | succ n ih =>
    intro fuel i d hf hfail hs
    obtain ⟨f, rfl⟩ : ∃ f, fuel = f + 1 := ⟨fuel - 1, by omega⟩
    have h0 : outcome_fails (outcomes i) = true := by
      have := hfail 0 (by omega)
      simpa using this
    have hrec : request_loop outcomes f (i + 1) (2 * d) =
        ⟨n + 1, backoff_delays (2 * d) n, true⟩ := by
      refine ih f (i + 1) (2 * d) (by omega) ?_ ?_
      · intro k hk
        have := hfail (k + 1) (by omega)
        have harith : i + (k + 1) = i + 1 + k := by omega
        rwa [harith] at this
      · have harith : i + (n + 1) = i + 1 + n := by omega
        rwa [harith] at hs
    have hf0 : f ≠ 0 := by omega
    rw [request_loop_succ, if_pos h0, if_neg hf0, hrec]
    simp [backoff_delays]

/-- C3: a plain 404 — a non-retryable client error per the spec — is in fact
caught and retried: with a ceiling of 3 the loop performs 3 attempts and
sleeps twice before surfacing the error, instead of failing fast after one
attempt with no sleep. -/
theorem client_error_retried :
    request (fun _ => .resp 404) 3 = ⟨3, [1, 2], false⟩ ∧
    (3 : Nat) ≠ 1 ∧ ([1, 2] : List Rat) ≠ [] := by
  refine ⟨?_, by decide, by decide⟩
  show request_loop (fun _ => .resp 404) 3 1 1 = ⟨3, [1, 2], false⟩
  rw [request_loop_all_fail (fun _ => .resp 404) (fun k => rfl) 3 (by omega) 1 1]
  norm_num [backoff_delays]

/-- C5 counterexample: one 500 then success — the sleep before attempt 2 is
1.0 (the base), not base × 2^(2−1) = 2. -/
theorem backoff_arithmetic_counterexample :
    (request (fun i => if i = 1 then .resp 500 else .resp 200) 3).attempts = 2 ∧
    (request (fun i => if i = 1 then .resp 500 else .resp 200) 3).sleeps = [1] ∧
    ((1 : Rat) ≠ 1 * 2 ^ (2 - 1)) := by
  have h : request (fun i => if i = 1 then .resp 500 else .resp 200) 3 =
      ⟨2, backoff_delays 1 1, true⟩ :=
    request_loop_mixed (fun i => if i = 1 then .resp 500 else .resp 200) 1 3 1 1
      (by omega) (by decide) (by decide)
  refine ⟨?_, ?_, by norm_num⟩
  · rw [h]
  · rw [h]
    rfl

/-- C5 amended: N retried failures then a success make exactly N+1 attempts,
and the j-th backoff sleep (slept before attempt j+2) is base × 2^j with
base = 1.0 — equivalently, the delay before attempt k is base × 2^(k−2). -/
theorem backoff_arithmetic_amended (outcomes : Nat → FetchOutcome)
    (N retries : Nat) (hN : N + 1 ≤ retries)
    (hfail : ∀ k, k < N → outcome_fails (outcomes (1 + k)) = true)
    (hsucc : outcome_fails (outcomes (1 + N)) = false) :
    request outcomes retries = ⟨N + 1, backoff_delays 1 N, true⟩ ∧
    ∀ j, j < N → (backoff_delays 1 N)[j]? = some (2 ^ j) := by
  constructor
  · exact request_loop_mixed outcomes N retries 1 1 (by omega) hfail hsucc
  · intro j hj
    have := backoff_delays_get 1 N j hj
    simpa using this

theorem backoff_arithmetic_witness :
    request (fun i => if i ≤ 2 then .resp 429 else .resp 200) 3 =
      ⟨3, backoff_delays 1 2, true⟩ ∧
    ∀ j, j < 2 → (backoff_delays 1 2)[j]? = some (2 ^ j) :=
  backoff_arithmetic_amended (fun i => if i ≤ 2 then .resp 429 else .resp 200)
    2 3 (by omega) (by decide) (by decide)

/-! ## Scrape-loop lemmas -/

theorem process_all_errors (store : RawDeal → StoreResult) :
    ∀ (rs : List (Except Unit (List RawDeal))), (∀ r ∈ rs, r = .error ()) →
    ∀ (st : ScrapeStats) (b : Bool),
    rs.foldl (process_result store) (st, b) =
      ({ st with failed := st.failed + rs.length }, b) := by
  intro rs
  induction rs with
  | nil => intro _ st b; simp
  | cons r t ih =>
    intro h st b
    have hr : r = .error () := h r (List.mem_cons_self r t)
    subst hr
    rw [List.foldl_cons,
      show process_result store (st, b) (.error ()) =
        ({ st with failed := st.failed + 1 }, b) from rfl,
      ih (fun q hq => h q (List.mem_cons_of_mem _ hq)) _ b]
    have harith : st.failed + 1 + t.length = st.failed + (t.length + 1) := by omega
    rw [harith]
    rfl

theorem scrape_loop_succ (fetch : Nat → Except Unit (List RawDeal))
    (store : RawDeal → StoreResult) (conc total fuel page streak : Nat)
    (stats : ScrapeStats) :
    scrape_loop fetch store conc total (fuel + 1) page streak stats =
      if page ≤ total then
        let batch_size := min conc (total - page + 1)
        let results := (List.range' page batch_size).map fetch
        let folded := results.foldl (process_result store) (stats, true)
        if folded.2 then
          if 3 ≤ streak + 1 then (folded.1, page, true)
          else scrape_loop fetch store conc total fuel (page + batch_size) (streak + 1) folded.1
        else scrape_loop fetch store conc total fuel (page + batch_size) 0 folded.1
      else (stats, page, false) := rfl

/-- One loop iteration when every fetched page raises: the batch is fully
empty, the batch's pages are counted failed, the streak grows. -/
theorem scrape_loop_fail_advance (fetch : Nat → Except Unit (List RawDeal))
    (store : RawDeal → StoreResult) (conc total fuel page streak : Nat)
    (stats : ScrapeStats) (hpage : page ≤ total)
    (hfail : ∀ p, fetch p = .error ()) (hstreak : streak + 1 < 3) :
    scrape_loop fetch store conc total (fuel + 1) page streak stats =
      scrape_loop fetch store conc total fuel (page + min conc (total - page + 1))
        (streak + 1)
        { stats with failed := stats.failed + min conc (total - page + 1) } := by
  have hres : ∀ r ∈ (List.range' page (min conc (total - page + 1))).map fetch,
      r = Except.error () := by
    intro r hr
    obtain ⟨p, _, rfl⟩ := List.mem_map.mp hr
    exact hfail p
  rw [scrape_loop_succ, if_pos hpage]
  simp only [process_all_errors store _ hres stats true, List.length_map,
    List.length_range', eq_self_iff_true, if_true,
    if_neg (by omega : ¬ 3 ≤ streak + 1)]

/-- The third consecutive all-failed batch breaks the loop before the page
advance. -/
theorem scrape_loop_fail_break (fetch : Nat → Except Unit (List RawDeal))
    (store : RawDeal → StoreResult) (conc total fuel page streak : Nat)
    (stats : ScrapeStats) (hpage : page ≤ total)
    (hfail : ∀ p, fetch p = .error ()) (hstreak : 3 ≤ streak + 1) :
    scrape_loop fetch store conc total (fuel + 1) page streak stats =
      ({ stats with failed := stats.failed + min conc (total - page + 1) }, page, true) := by
  have hres : ∀ r ∈ (List.range' page (min conc (total - page + 1))).map fetch,
      r = Except.error () := by
    intro r hr
    obtain ⟨p, _, rfl⟩ := List.mem_map.mp hr
    exact hfail p
  rw [scrape_loop_succ, if_pos hpage]
  simp only [process_all_errors store _ hres stats true, List.length_map,
    List.length_range', eq_self_iff_true, if_true, if_pos hstreak]

/-- C10: when every page fetch raises, each batch counts as fully empty;
after exactly three consecutive batches the loop breaks early with `3c`
pages counted failed while pages below the ceiling remain unfetched. -/
theorem all_failed_batches_terminate (fetch : Nat → Except Unit (List RawDeal))
    (store : RawDeal → StoreResult) (c total : Nat)
    (hc : 1 ≤ c) (ht : 3 * c < total) (hfail : ∀ p, fetch p = .error ()) :
    scrape_all fetch store c total = (⟨0, 0, 0, 0, 3 * c⟩, 1 + 2 * c, true) := by
  unfold scrape_all
  obtain ⟨m, hm⟩ : ∃ m, total + 1 = m + 1 + 1 + 1 := ⟨total - 2, by omega⟩
  rw [hm]
  rw [scrape_loop_fail_advance fetch store c total (m + 1 + 1) 1 0 ⟨0, 0, 0, 0, 0⟩
    (by omega) hfail (by omega)]
  rw [show min c (total - 1 + 1) = c by omega]
  rw [scrape_loop_fail_advance fetch store c total (m + 1) (1 + c) 1 _
    (by omega) hfail (by omega)]
  rw [show min c (total - (1 + c) + 1) = c by omega]
  rw [scrape_loop_fail_break fetch store c total m (1 + c + c) 2 _
    (by omega) hfail (by omega)]
  rw [show min c (total - (1 + c + c) + 1) = c by omega]
  rw [show (1 : Nat) + c + c = 1 + 2 * c by omega]
  have hfield : 0 + c + c + c = 3 * c := by omega
  rw [hfield]

theorem all_failed_batches_terminate_witness :
    scrape_all (fun _ => .error ()) (fun _ => .inserted) 5 100 =
      (⟨0, 0, 0, 0, 15⟩, 11, true) :=
  all_failed_batches_terminate (fun _ => .error ()) (fun _ => .inserted) 5 100
    (by omega) (by omega) (fun p => rfl)

/-! ## Aggregation lemmas -/

theorem deals_for_cons_of_match (s : String) (d : Deal) (ds : List Deal)
    (cutoff : Int) (hstir : d.provider_stir = some s)
    (hwin : in_window cutoff d = true) :
    deals_for s (d :: ds) cutoff = d :: deals_for s ds cutoff := by
  unfold deals_for
  rw [List.filter_cons]
  simp [hstir, hwin]

theorem discount_samples_cons_zero (d : Deal) (g : List Deal)
    (hzero : d.start_cost = 0) :
    discount_samples (d :: g) = discount_samples g := by
  unfold discount_samples
  rw [List.filterMap_cons]
  simp [hzero]

/-- C8: in the aggregation subquery, a deal with `start_cost = 0` adds one
to the company's win count and its `deal_cost` to the contract value, but
leaves the average discount exactly as it was. -/
theorem discount_exclusion (s : String) (d : Deal) (ds : List Deal)
    (cutoff : Int) (hstir : d.provider_stir = some s)
    (hwin : in_window cutoff d = true) (hzero : d.start_cost = 0) :
    win_count s (d :: ds) cutoff = win_count s ds cutoff + 1 ∧
    total_value s (d :: ds) cutoff = d.deal_cost + total_value s ds cutoff ∧
    avg_discount s (d :: ds) cutoff = avg_discount s ds cutoff := by
  have hd := deals_for_cons_of_match s d ds cutoff hstir hwin
  refine ⟨?_, ?_, ?_⟩
  · unfold win_count
    rw [hd]
    simp
  · unfold total_value
    rw [hd]
    simp
  · unfold avg_discount
    rw [hd, discount_samples_cons_zero d _ hzero]

theorem discount_exclusion_witness :
    win_count "300000001" [⟨7, 0, 55, "b", some "300000001", "p", some 100, "x", 2, none⟩] 0 = 0 + 1 ∧
    total_value "300000001" [⟨7, 0, 55, "b", some "300000001", "p", some 100, "x", 2, none⟩] 0 = 55 + 0 ∧
    avg_discount "300000001" [⟨7, 0, 55, "b", some "300000001", "p", some 100, "x", 2, none⟩] 0 = none := by
  exact discount_exclusion "300000001"
    ⟨7, 0, 55, "b", some "300000001", "p", some 100, "x", 2, none⟩ [] 0 rfl (by decide) rfl

/-- C9: submitting the same identifier under raw names
`OOO GAMMA QURILISH` then `GAMMA QURILISH MCHJ` yields one row, raw-name
set exactly those two entries (a repeated submission adds nothing), and
canonical name `GAMMA QURILISH`. -/
theorem merge_determinism_gamma :
    (upsert_company (upsert_company [] "304912345" "OOO GAMMA QURILISH" "etender" none)
        "304912345" "GAMMA QURILISH MCHJ" "etender" none).map
      (fun c => (c.canonical_name, c.raw_names)) =
      [("GAMMA QURILISH", ["OOO GAMMA QURILISH", "GAMMA QURILISH MCHJ"])] ∧
    (upsert_company (upsert_company (upsert_company [] "304912345" "OOO GAMMA QURILISH" "etender" none)
        "304912345" "GAMMA QURILISH MCHJ" "etender" none)
        "304912345" "GAMMA QURILISH MCHJ" "etender" none).map
      (fun c => (c.canonical_name, c.raw_names)) =
      [("GAMMA QURILISH", ["OOO GAMMA QURILISH", "GAMMA QURILISH MCHJ"])] := by
  decide
